import Mathlib

/-!
Shallow embedding of `src/storageImageUpdater.py` (classes `ConfigLoader`,
`FileUploader`, `ProcessManager`) and proofs about the claims of the spec.

External effects (the HTTP GET of `requests.get`, the HTTP POST of
`aiohttp.ClientSession.post`, the wall clock read of `datetime.now`,
the local filesystem) are modelled by an explicit per-record environment
`RecEnv` supplying the result of each effect, a filesystem state
`FS : String → Option Bytes`, and an event trace recording every GET
request, file write, file read, POST request and `asyncio.sleep` call in
program order.
-/

set_option autoImplicit false

namespace StorageImageUpdater

/-- Python `bytes`, modelled as a list of byte values. -/
abbrev Bytes := List Nat

/-- Decimal digit characters, as produced by Python `str` on a
nonnegative `int`: code point 48 + digit value. -/
def digitChar (d : Nat) : Char := Char.ofNat (48 + d)

/-- Fuel-indexed most-significant-first decimal digit list of a natural
number; `fuel` only bounds the recursion depth and any `fuel > n` yields
the true digit string of `n`. -/
def pyDigitsAux : Nat → Nat → List Char
  | 0, _ => []
  | fuel + 1, n =>
    if n < 10 then [digitChar n]
    else pyDigitsAux fuel (n / 10) ++ [digitChar (n % 10)]

/-- Model of Python `str` applied to a nonnegative `int` (used by the
f-string at line 80 and by `str(value)` at line 123 of the source). -/
def pyStr (n : Nat) : String := String.mk (pyDigitsAux (n + 1) n)

/-- Numeric value of a most-significant-first decimal digit list;
left inverse of `pyDigitsAux` used to prove `pyStr` injective. -/
def digitsVal (l : List Char) : Nat :=
  l.foldl (fun acc c => acc * 10 + (c.toNat - 48)) 0

/-- Model of `os.path.basename`: the part of a path after its last
slash. -/
def basename (p : String) : String :=
  String.mk ((p.data.reverse.takeWhile (fun c => c ≠ '/')).reverse)

/-- Characters remaining after the first occurrence of the "://" scheme
separator, if any. -/
def afterSchemeSep : List Char → Option (List Char)
  | ':' :: '/' :: '/' :: rest => some rest
  | _ :: rest => afterSchemeSep rest
  | [] => none

/-- Model of Python `urlparse(url).path` for the URLs this program
handles: when a "://" scheme separator is present the netloc up to the
next slash is dropped, and the path stops at a query or fragment
delimiter. -/
def urlparsePath (url : String) : String :=
  let cs :=
    match afterSchemeSep url.data with
    | some rest => rest.dropWhile (fun c => c ≠ '/')
    | none => url.data
  String.mk (cs.takeWhile (fun c => c ≠ '?' && c ≠ '#'))

/-- Model of `os.path.join` for a directory and a relative filename
(the only shape the program uses at line 81). -/
def joinPath (dir file : String) : String := dir ++ "/" ++ file

/-- The filename derivation of `FileUploader.download_image`
(lines 79-80): `productId_mediaId_basename(urlparse(url).path)`. -/
def deriveFilename (url : String) (productId mediaId : Nat) : String :=
  pyStr productId ++ "_" ++ pyStr mediaId ++ "_" ++ basename (urlparsePath url)

lemma digitChar_ne_underscore {d : Nat} (h : d < 10) : digitChar d ≠ '_' := by
  interval_cases d <;> decide

lemma toNat_digitChar {d : Nat} (h : d < 10) : (digitChar d).toNat = 48 + d := by
  interval_cases d <;> decide

lemma underscore_not_mem_pyDigitsAux : ∀ (fuel n : Nat), '_' ∉ pyDigitsAux fuel n := by
  intro fuel
  induction fuel with
  | zero => intro n; simp [pyDigitsAux]
  | succ fuel ih =>
    intro n
    simp only [pyDigitsAux]
    by_cases h : n < 10
    · simp only [if_pos h, List.mem_singleton]
      exact fun hc => digitChar_ne_underscore h hc.symm
    · simp only [if_neg h, List.mem_append, List.mem_singleton]
      rintro (hc | hc)
      · exact ih (n / 10) hc
      · exact digitChar_ne_underscore (Nat.mod_lt n (by omega)) hc.symm

lemma digitsVal_pyDigitsAux : ∀ (fuel n : Nat), n < fuel →
    digitsVal (pyDigitsAux fuel n) = n := by
  intro fuel
  induction fuel with
  | zero => intro n h; omega
  | succ fuel ih =>
    intro n h
    simp only [pyDigitsAux]
    by_cases h10 : n < 10
    · simp [if_pos h10, digitsVal, toNat_digitChar h10]
    · have hdiv : n / 10 < fuel := by
        have h1 : n / 10 < n := Nat.div_lt_self (by omega) (by omega)
        omega
      simp only [if_neg h10, digitsVal, List.foldl_append, List.foldl_cons,
        List.foldl_nil]
      have := ih (n / 10) hdiv
      simp only [digitsVal] at this
      rw [this, toNat_digitChar (Nat.mod_lt n (by omega))]
      omega

lemma pyStr_inj {a b : Nat} (h : pyStr a = pyStr b) : a = b := by
  have hdata : pyDigitsAux (a + 1) a = pyDigitsAux (b + 1) b :=
    congrArg String.data h
  have ha := digitsVal_pyDigitsAux (a + 1) a (by omega)
  have hb := digitsVal_pyDigitsAux (b + 1) b (by omega)
  rw [hdata] at ha
  omega

lemma underscore_not_mem_pyStr_data (n : Nat) : '_' ∉ (pyStr n).data :=
  underscore_not_mem_pyDigitsAux (n + 1) n

/-- Splitting a character list at a reserved separator character is
unambiguous when neither prefix contains the separator. -/
lemma append_sep_inj : ∀ (a c b d : List Char), '_' ∉ a → '_' ∉ c →
    a ++ '_' :: b = c ++ '_' :: d → a = c ∧ b = d := by
  intro a
  induction a with
  | nil =>
    intro c b d _ hc h
    cases c with
    | nil => simpa using h
    | cons y ys =>
      simp only [List.nil_append, List.cons_append, List.cons.injEq] at h
      exact absurd (List.mem_cons_self y ys) (h.1 ▸ hc)
  | cons x xs ih =>
    intro c b d ha hc h
    cases c with
    | nil =>
      simp only [List.nil_append, List.cons_append, List.cons.injEq] at h
      exact absurd (List.mem_cons_self x xs) (h.1 ▸ ha)
    | cons y ys =>
      simp only [List.cons_append, List.cons.injEq] at h
      have hxs : '_' ∉ xs := fun hm => ha (List.mem_cons_of_mem x hm)
      have hys : '_' ∉ ys := fun hm => hc (List.mem_cons_of_mem y hm)
      obtain ⟨h1, h2⟩ := ih ys b d hxs hys h.2
      exact ⟨by rw [h.1, h1], h2⟩

lemma deriveFilename_inj {u1 u2 : String} {p1 p2 m1 m2 : Nat}
    (h : deriveFilename u1 p1 m1 = deriveFilename u2 p2 m2) :
    p1 = p2 ∧ m1 = m2 := by
  have hdata : (deriveFilename u1 p1 m1).data = (deriveFilename u2 p2 m2).data :=
    congrArg String.data h
  simp only [deriveFilename, String.data_append, List.append_assoc,
    List.singleton_append] at hdata
  obtain ⟨hp, hrest⟩ := append_sep_inj _ _ _ _
    (underscore_not_mem_pyStr_data p1) (underscore_not_mem_pyStr_data p2) hdata
  obtain ⟨hm, _⟩ := append_sep_inj _ _ _ _
    (underscore_not_mem_pyStr_data m1) (underscore_not_mem_pyStr_data m2) hrest
  constructor
  · exact pyStr_inj (congrArg String.mk hp)
  · exact pyStr_inj (congrArg String.mk hm)

/-- One database row, restricted to the columns the pipeline consumes
(`ProductId`, `MediaId`, `URL`, `Order`, `MediaResourceId`,
`ContentType`). -/
structure Record where
  productId : Nat
  mediaId : Nat
  url : String
  order : Nat
  mediaResourceId : String
  contentType : String
deriving Repr, DecidableEq

/-- Result of the single `requests.get(url, stream=True)` call at
line 84: either the call raised, or a complete response with a status
code and body bytes. -/
inductive FetchResult
  | exn
  | resp (status : Nat) (body : Bytes)
deriving Repr, DecidableEq

/-- Result of one `session.post` attempt inside the retry loop at
lines 130-149: a response with status and text, an
`asyncio.TimeoutError`, or any other exception. -/
inductive AttemptResult
  | exn
  | timeout
  | resp (status : Nat) (body : String)
deriving Repr, DecidableEq

/-- Environment of one per-record pipeline invocation: the outcome of
its fetch, the outcome of its upload attempt number `i`, and the value
the single `datetime.datetime.now` call at line 106 returns. -/
structure RecEnv where
  fetchResult : FetchResult
  attemptResult : Nat → AttemptResult
  now : String

/-- Local filesystem state: contents by path. -/
abbrev FS := String → Option Bytes

/-- The multipart form built at lines 108-123: the `FormFile` part plus
the fixed metadata fields, every metadata value passed through
`str`. -/
structure UploadPayload where
  formFileName : String
  formFileContentType : String
  formFileBytes : Bytes
  tenantId : String
  entityType : String
  entityId : String
  mediaResourceId : String
  order : String
  internalCode : String
  mediaType : String
  date : String
deriving Repr, DecidableEq

/-- One observable external effect, in program order. -/
inductive Event
  | getReq (url : String)
  | fileWrite (path : String) (bytes : Bytes)
  | fileRead (path : String)
  | postReq (url : String) (apiKey : String) (payload : UploadPayload)
  | sleep (units : Nat)
deriving Repr, DecidableEq

/-- The per-record return value of `upload_file`: a
`(status, message, responseText)` string triple exactly as the source
returns it. -/
abbrev Outcome := String × String × String

/-- The configuration fields `ConfigLoader.__init__` reads from the
environment (lines 29-36); the database fields are external-collaborator
concerns and the `REQUEST_DELAY` float is modelled by its parsed value,
which nothing in the program ever reads. -/
structure Config where
  uploadUrl : String
  apiKey : String
  requestDelay : Nat
  imageDownloadPath : String
deriving Repr, DecidableEq

/-- The state of a `FileUploader` instance (lines 70-75): the four
copied configuration fields plus the hard-coded `max_retries = 3`. -/
structure FileUploader where
  uploadUrl : String
  apiKey : String
  requestDelay : Nat
  imageDownloadPath : String
  maxRetries : Nat
deriving Repr, DecidableEq

/-- `FileUploader.__init__` (lines 70-75). -/
def mkFileUploader (config : Config) : FileUploader :=
  { uploadUrl := config.uploadUrl
    apiKey := config.apiKey
    requestDelay := config.requestDelay
    imageDownloadPath := config.imageDownloadPath
    maxRetries := 3 }

/-- `FileUploader.download_image` (lines 77-96): derives the filename,
issues one GET, and on status 200 writes the body to the derived path
and returns `(file_path, new_filename)`; on any other status or an
exception returns `(None, None)` and leaves the filesystem unchanged. -/
def download_image (u : FileUploader) (url : String) (productId mediaId : Nat)
    (res : FetchResult) (fs : FS) :
    Option (String × String) × FS × List Event :=
  let newFilename := deriveFilename url productId mediaId
  let filePath := joinPath u.imageDownloadPath newFilename
  match res with
  | .exn => (none, fs, [Event.getReq url])
  | .resp status body =>
    if status = 200 then
      (some (filePath, newFilename),
        fun p => if p = filePath then some body else fs p,
        [Event.getReq url, Event.fileWrite filePath body])
    else
      (none, fs, [Event.getReq url])

/-- The `data` dict and `FormData` construction at lines 108-123,
folding in the file part read back from disk. -/
def buildForm (row : Record) (fileName : String) (fileBytes : Bytes)
    (currentDate : String) : UploadPayload :=
  { formFileName := fileName
    formFileContentType := row.contentType
    formFileBytes := fileBytes
    tenantId := "2"
    entityType := "product"
    entityId := pyStr row.productId
    mediaResourceId := row.mediaResourceId
    order := pyStr row.order
    internalCode := pyStr row.productId
    mediaType := "image"
    date := currentDate }

/-- The retry loop `for attempt in range(self.max_retries)` at
lines 130-150: each iteration POSTs the (already built) form; a 200
response returns immediately; a non-200 response, a timeout, or an
exception sleeps `2 ^ attempt` time units and continues; falling off
the loop returns the max-retries error triple. `remaining` is the
number of iterations left. -/
def uploadAttempts (u : FileUploader) (payload : UploadPayload) (env : RecEnv) :
    Nat → Nat → Outcome × List Event
  | _, 0 => (("Error", "Max retries reached", ""), [])
  | attempt, remaining + 1 =>
    match env.attemptResult attempt with
    | .resp s body =>
      if s = 200 then
        (("Success", "Uploaded successfully", body),
          [Event.postReq u.uploadUrl u.apiKey payload])
      else
        let rest := uploadAttempts u payload env (attempt + 1) remaining
        (rest.1,
          Event.postReq u.uploadUrl u.apiKey payload ::
            Event.sleep (2 ^ attempt) :: rest.2)
    | .timeout =>
      let rest := uploadAttempts u payload env (attempt + 1) remaining
      (rest.1,
        Event.postReq u.uploadUrl u.apiKey payload ::
          Event.sleep (2 ^ attempt) :: rest.2)
    | .exn =>
      let rest := uploadAttempts u payload env (attempt + 1) remaining
      (rest.1,
        Event.postReq u.uploadUrl u.apiKey payload ::
          Event.sleep (2 ^ attempt) :: rest.2)

/-- `FileUploader.upload_file` (lines 98-150): download the image; if
that failed return the download-error triple; otherwise stamp
`current_date` once, read the file back once, build the form once, and
run the retry loop on that single form. -/
def upload_file (u : FileUploader) (row : Record) (env : RecEnv) (fs : FS) :
    Outcome × FS × List Event :=
  match download_image u row.url row.productId row.mediaId env.fetchResult fs with
  | (none, fs1, evs) => (("Error", "Failed to download image", ""), fs1, evs)
  | (some (filePath, fileName), fs1, evs) =>
    let currentDate := env.now
    let fileBytes := (fs1 filePath).getD []
    let payload := buildForm row fileName fileBytes currentDate
    let res := uploadAttempts u payload env 0 u.maxRetries
    (res.1, fs1, evs ++ Event.fileRead filePath :: res.2)

/-- What `ProcessManager.run` (lines 161-183) produces: the list that
`asyncio.gather` returns (one outcome per record, in task creation
order), the data handed to the report sink by `df.to_excel` at line 180
(the DataFrame itself, which does not contain `results`), the final
filesystem, and the combined event trace. -/
structure RunResult where
  results : List Outcome
  sinkInput : List Record
  finalFs : FS
  events : List Event

/-- Sequential composition of the per-record pipelines spawned at
line 176. -/
def runPipelines (u : FileUploader) (fs : FS) :
    List (Record × RecEnv) → List Outcome × FS × List Event
  | [] => ([], fs, [])
  | (r, e) :: rest =>
    let first := upload_file u r e fs
    let others := runPipelines u first.2.1 rest
    (first.1 :: others.1, others.2.1, first.2.2 ++ others.2.2)

/-- `ProcessManager.run` (lines 161-183) after the external database
fetch: gathers one outcome per record and hands the unmodified record
set to the report sink (`df.to_excel("output.xlsx")` writes `df`; the
gathered `results` value is never used). -/
def run (u : FileUploader) (inputs : List (Record × RecEnv)) (fs : FS) :
    RunResult :=
  let gathered := runPipelines u fs inputs
  { results := gathered.1
    sinkInput := inputs.map Prod.fst
    finalFs := gathered.2.1
    events := gathered.2.2 }

/-- The POST payloads of a trace, in order. -/
def postsOf (evs : List Event) : List UploadPayload :=
  evs.filterMap fun e =>
    match e with
    | .postReq _ _ p => some p
    | _ => none

/-- The sleep durations of a trace, in order. -/
def sleepsOf (evs : List Event) : List Nat :=
  evs.filterMap fun e =>
    match e with
    | .sleep n => some n
    | _ => none

/-- The number of file reads in a trace. -/
def fileReadsOf (evs : List Event) : Nat :=
  evs.countP fun e =>
    match e with
    | .fileRead _ => true
    | _ => false

/-- An upload attempt result the retry loop treats as a failure:
anything other than a status-200 response. -/
def attemptFails (r : AttemptResult) : Bool :=
  match r with
  | .resp s _ => s != 200
  | .timeout => true
  | .exn => true

/-- A fetch result `download_image` treats as a failure: an exception
or any status other than 200. -/
def fetchFails (r : FetchResult) : Bool :=
  match r with
  | .resp s _ => s != 200
  | .exn => true

/-- The empty filesystem. -/
def emptyFs : FS := fun _ => none

/-- Expected trace of `remaining` consecutive failing attempts starting
at attempt number `attempt`: each POSTs and then sleeps
`2 ^ attempt` units, the final attempt included. -/
def failTrace (u : FileUploader) (payload : UploadPayload) :
    Nat → Nat → List Event
  | _, 0 => []
  | attempt, remaining + 1 =>
    Event.postReq u.uploadUrl u.apiKey payload ::
      Event.sleep (2 ^ attempt) :: failTrace u payload (attempt + 1) remaining

lemma uploadAttempts_allFail (u : FileUploader) (payload : UploadPayload)
    (env : RecEnv) : ∀ (remaining attempt : Nat),
    (∀ i, attempt ≤ i → i < attempt + remaining →
      attemptFails (env.attemptResult i) = true) →
    uploadAttempts u payload env attempt remaining =
      (("Error", "Max retries reached", ""), failTrace u payload attempt remaining) := by
  intro remaining
  induction remaining with
  | zero => intro attempt _; rfl
  | succ remaining ih =>
    intro attempt hfail
    have hthis : attemptFails (env.attemptResult attempt) = true :=
      hfail attempt (Nat.le_refl _) (by omega)
    have hrest := ih (attempt + 1) (fun i h1 h2 => hfail i (by omega) (by omega))
    simp only [uploadAttempts, failTrace]
    cases hres : env.attemptResult attempt with
    | exn => simp [hrest]
    | timeout => simp [hrest]
    | resp s body =>
      have hs : s ≠ 200 := by
        rw [hres] at hthis
        simpa [attemptFails] using hthis
      simp [if_neg hs, hrest]

lemma uploadAttempts_firstSuccess (u : FileUploader) (payload : UploadPayload)
    (env : RecEnv) : ∀ (remaining attempt k : Nat) (body : String),
    k < remaining →
    (∀ j, attempt ≤ j → j < attempt + k →
      attemptFails (env.attemptResult j) = true) →
    env.attemptResult (attempt + k) = .resp 200 body →
    uploadAttempts u payload env attempt remaining =
      (("Success", "Uploaded successfully", body),
        failTrace u payload attempt k ++
          [Event.postReq u.uploadUrl u.apiKey payload]) := by
  intro remaining
  induction remaining with
  | zero => intro attempt k body hk; omega
  | succ remaining ih =>
    intro attempt k body hk hfail hsucc
    cases k with
    | zero =>
      simp only [Nat.add_zero] at hsucc
      simp [uploadAttempts, hsucc, failTrace]
    | succ k =>
      have hthis : attemptFails (env.attemptResult attempt) = true :=
        hfail attempt (Nat.le_refl _) (by omega)
      have hrest := ih (attempt + 1) k body (by omega)
        (fun j h1 h2 => hfail j (by omega) (by omega))
        (by rw [show attempt + 1 + k = attempt + (k + 1) by omega]; exact hsucc)
      simp only [uploadAttempts, failTrace]
      cases hres : env.attemptResult attempt with
      | exn => simp [hrest]
      | timeout => simp [hrest]
      | resp s rbody =>
        have hs : s ≠ 200 := by
          rw [hres] at hthis
          simpa [attemptFails] using hthis
        simp [if_neg hs, hrest]

lemma postsOf_failTrace (u : FileUploader) (payload : UploadPayload) :
    ∀ (attempt remaining : Nat),
    postsOf (failTrace u payload attempt remaining) =
      List.replicate remaining payload := by
  intro attempt remaining
  induction remaining generalizing attempt with
  | zero => rfl
  | succ remaining ih =>
    simp [failTrace, postsOf, List.replicate] at ih ⊢
    exact ih (attempt + 1)

lemma fileReadsOf_failTrace (u : FileUploader) (payload : UploadPayload) :
    ∀ (attempt remaining : Nat),
    fileReadsOf (failTrace u payload attempt remaining) = 0 := by
  intro attempt remaining
  induction remaining generalizing attempt with
  | zero => rfl
  | succ remaining ih =>
    simp only [failTrace, fileReadsOf, List.countP_cons]
    simp only [fileReadsOf] at ih
    rw [ih (attempt + 1)]
    rfl

/-- Every event the retry loop emits is a sleep or a POST of the one
form built before the loop. -/
lemma uploadAttempts_events_shape (u : FileUploader) (payload : UploadPayload)
    (env : RecEnv) : ∀ (remaining attempt : Nat) (e : Event),
    e ∈ (uploadAttempts u payload env attempt remaining).2 →
    (∃ n, e = Event.sleep n) ∨
      e = Event.postReq u.uploadUrl u.apiKey payload := by
  intro remaining
  induction remaining with
  | zero => intro attempt e he; simp [uploadAttempts] at he
  | succ remaining ih =>
    intro attempt e
    simp only [uploadAttempts]
    cases env.attemptResult attempt with
    | exn =>
      intro he
      rcases List.mem_cons.1 he with h | h
      · exact Or.inr h
      · rcases List.mem_cons.1 h with h2 | h2
        · exact Or.inl ⟨2 ^ attempt, h2⟩
        · exact ih (attempt + 1) e h2
    | timeout =>
      intro he
      rcases List.mem_cons.1 he with h | h
      · exact Or.inr h
      · rcases List.mem_cons.1 h with h2 | h2
        · exact Or.inl ⟨2 ^ attempt, h2⟩
        · exact ih (attempt + 1) e h2
    | resp s body =>
      intro he
      by_cases hs : s = 200
      · simp [hs] at he
        exact Or.inr he
      · simp [hs, List.mem_cons] at he
        rcases he with h | h | h
        · exact Or.inr h
        · exact Or.inl ⟨2 ^ attempt, h⟩
        · exact ih (attempt + 1) e h

lemma mem_postsOf_uploadAttempts (u : FileUploader) (payload : UploadPayload)
    (env : RecEnv) (remaining attempt : Nat) (q : UploadPayload)
    (hq : q ∈ postsOf (uploadAttempts u payload env attempt remaining).2) :
    q = payload := by
  simp only [postsOf, List.mem_filterMap] at hq
  obtain ⟨e, he, heq⟩ := hq
  rcases uploadAttempts_events_shape u payload env remaining attempt e he with
    ⟨n, rfl⟩ | rfl
  · simp at heq
  · simpa using heq.symm

lemma fileReadsOf_uploadAttempts (u : FileUploader) (payload : UploadPayload)
    (env : RecEnv) : ∀ (remaining attempt : Nat),
    fileReadsOf (uploadAttempts u payload env attempt remaining).2 = 0 := by
  intro remaining
  induction remaining with
  | zero => intro attempt; rfl
  | succ remaining ih =>
    intro attempt
    simp only [uploadAttempts]
    cases env.attemptResult attempt with
    | exn =>
      simp only [fileReadsOf, List.countP_cons] at ih ⊢
      rw [ih (attempt + 1)]
      rfl
    | timeout =>
      simp only [fileReadsOf, List.countP_cons] at ih ⊢
      rw [ih (attempt + 1)]
      rfl
    | resp s body =>
      by_cases hs : s = 200
      · simp [if_pos hs, fileReadsOf]
      · simp only [if_neg hs, fileReadsOf, List.countP_cons] at ih ⊢
        rw [ih (attempt + 1)]
        rfl

/-- The outcome of one record's pipeline does not depend on the
incoming filesystem state: on a successful fetch the bytes read back
are exactly the bytes the download just wrote. -/
lemma upload_file_outcome_fs_irrel (u : FileUploader) (row : Record)
    (env : RecEnv) (fs1 fs2 : FS) :
    (upload_file u row env fs1).1 = (upload_file u row env fs2).1 := by
  simp only [upload_file, download_image]
  cases env.fetchResult with
  | exn => rfl
  | resp status body =>
    by_cases hs : status = 200
    · simp [if_pos hs]
    · simp [if_neg hs]

/-- A concrete configuration for the concrete evaluations below. -/
def sampleConfig : Config :=
  { uploadUrl := "http://up/api"
    apiKey := "k"
    requestDelay := 1
    imageDownloadPath := "images" }

/-- The uploader built from `sampleConfig`; its `maxRetries` is the
hard-coded 3 of the source. -/
def sampleUploader : FileUploader := mkFileUploader sampleConfig

/-- The record of the end-to-end scenario in the spec. -/
def sampleRecord : Record :=
  { productId := 1
    mediaId := 9
    url := "http://x/a.png"
    order := 0
    mediaResourceId := "r1"
    contentType := "image/png" }

/-- Environment: fetch succeeds, every upload attempt returns 500. -/
def envAllFail : RecEnv :=
  { fetchResult := .resp 200 [137, 80, 78, 71]
    attemptResult := fun _ => .resp 500 "server error"
    now := "2025-05-05T10:00:00+00:00" }

/-- Environment: fetch succeeds, attempt 0 returns 500, attempt 1
returns 200. -/
def envRetryThenOk : RecEnv :=
  { fetchResult := .resp 200 [137, 80, 78, 71]
    attemptResult := fun i => if i = 0 then .resp 500 "err" else .resp 200 "ok-42"
    now := "2025-05-05T10:00:00+00:00" }

/-- Environment: fetch returns 404. -/
def envFetch404 : RecEnv :=
  { fetchResult := .resp 404 []
    attemptResult := fun _ => .resp 200 "unreached"
    now := "2025-05-05T10:00:00+00:00" }

/-- Environment: fetch succeeds and the first upload attempt returns
200. -/
def envOk : RecEnv :=
  { fetchResult := .resp 200 [137, 80, 78, 71]
    attemptResult := fun _ => .resp 200 "ok-42"
    now := "2025-05-05T10:00:00+00:00" }

/-- Unfolding of `upload_file` when the fetch returns status 200: the
download writes the body at the derived path, the form is built once
from those bytes and the single timestamp, and the retry loop runs on
that one form. -/
lemma upload_file_fetch200 (u : FileUploader) (row : Record) (env : RecEnv)
    (fs : FS) (body : Bytes) (h : env.fetchResult = .resp 200 body) :
    upload_file u row env fs =
      ((uploadAttempts u
          (buildForm row (deriveFilename row.url row.productId row.mediaId) body env.now)
          env 0 u.maxRetries).1,
        fun p =>
          if p = joinPath u.imageDownloadPath
              (deriveFilename row.url row.productId row.mediaId) then
            some body
          else fs p,
        Event.getReq row.url ::
          Event.fileWrite
            (joinPath u.imageDownloadPath
              (deriveFilename row.url row.productId row.mediaId)) body ::
          Event.fileRead
            (joinPath u.imageDownloadPath
              (deriveFilename row.url row.productId row.mediaId)) ::
          (uploadAttempts u
            (buildForm row (deriveFilename row.url row.productId row.mediaId) body env.now)
            env 0 u.maxRetries).2) := by
  simp [upload_file, download_image, h]

/-- Unfolding of `upload_file` when the fetch raises or returns a
non-200 status: one GET, no file write, no upload attempt, the
download-error triple. -/
lemma upload_file_fetchFail (u : FileUploader) (row : Record) (env : RecEnv)
    (fs : FS) (h : fetchFails env.fetchResult = true) :
    upload_file u row env fs =
      (("Error", "Failed to download image", ""), fs, [Event.getReq row.url]) := by
  simp only [upload_file, download_image]
  cases henv : env.fetchResult with
  | exn => rfl
  | resp s b =>
    have hs : s ≠ 200 := by
      rw [henv] at h
      simpa [fetchFails] using h
    simp [if_neg hs]

lemma postsOf_cons_getReq (url : String) (l : List Event) :
    postsOf (Event.getReq url :: l) = postsOf l := rfl

lemma postsOf_cons_fileWrite (p : String) (b : Bytes) (l : List Event) :
    postsOf (Event.fileWrite p b :: l) = postsOf l := rfl

lemma postsOf_cons_fileRead (p : String) (l : List Event) :
    postsOf (Event.fileRead p :: l) = postsOf l := rfl

lemma postsOf_append (l1 l2 : List Event) :
    postsOf (l1 ++ l2) = postsOf l1 ++ postsOf l2 :=
  List.filterMap_append l1 l2 _

lemma postsOf_single_post (url apiKey : String) (payload : UploadPayload) :
    postsOf [Event.postReq url apiKey payload] = [payload] := rfl

lemma sleepsOf_cons_getReq (url : String) (l : List Event) :
    sleepsOf (Event.getReq url :: l) = sleepsOf l := rfl

lemma sleepsOf_cons_fileWrite (p : String) (b : Bytes) (l : List Event) :
    sleepsOf (Event.fileWrite p b :: l) = sleepsOf l := rfl

lemma sleepsOf_cons_fileRead (p : String) (l : List Event) :
    sleepsOf (Event.fileRead p :: l) = sleepsOf l := rfl

lemma sleepsOf_failTrace_three (u : FileUploader) (payload : UploadPayload) :
    sleepsOf (failTrace u payload 0 3) = [1, 2, 4] := rfl

lemma uploadAttempts_congr {u1 u2 : FileUploader}
    (hurl : u1.uploadUrl = u2.uploadUrl) (hkey : u1.apiKey = u2.apiKey)
    (payload : UploadPayload) (env : RecEnv) :
    ∀ (remaining attempt : Nat),
    uploadAttempts u1 payload env attempt remaining =
      uploadAttempts u2 payload env attempt remaining := by
  intro remaining
  induction remaining with
  | zero => intro attempt; rfl
  | succ remaining ih =>
    intro attempt
    simp only [uploadAttempts]
    cases env.attemptResult attempt with
    | exn => rw [hurl, hkey, ih]
    | timeout => rw [hurl, hkey, ih]
    | resp s body =>
      by_cases hs : s = 200
      · simp [if_pos hs, hurl, hkey]
      · simp only [if_neg hs]
        rw [hurl, hkey, ih]

lemma download_image_congr {u1 u2 : FileUploader}
    (hpath : u1.imageDownloadPath = u2.imageDownloadPath)
    (url : String) (pid mid : Nat) (res : FetchResult) (fs : FS) :
    download_image u1 url pid mid res fs = download_image u2 url pid mid res fs := by
  simp only [download_image, hpath]

lemma upload_file_congr {u1 u2 : FileUploader}
    (hurl : u1.uploadUrl = u2.uploadUrl) (hkey : u1.apiKey = u2.apiKey)
    (hpath : u1.imageDownloadPath = u2.imageDownloadPath)
    (hmax : u1.maxRetries = u2.maxRetries)
    (row : Record) (env : RecEnv) (fs : FS) :
    upload_file u1 row env fs = upload_file u2 row env fs := by
  simp only [upload_file]
  rw [download_image_congr hpath]
  cases download_image u2 row.url row.productId row.mediaId env.fetchResult fs with
  | mk fst rest =>
    cases fst with
    | none => rfl
    | some pair =>
      cases pair with
      | mk filePath fileName =>
        simp only
        rw [hmax, uploadAttempts_congr hurl hkey]

lemma runPipelines_congr (u1 u2 : FileUploader)
    (hurl : u1.uploadUrl = u2.uploadUrl) (hkey : u1.apiKey = u2.apiKey)
    (hpath : u1.imageDownloadPath = u2.imageDownloadPath)
    (hmax : u1.maxRetries = u2.maxRetries) :
    ∀ (inputs : List (Record × RecEnv)) (fs : FS),
    runPipelines u1 fs inputs = runPipelines u2 fs inputs := by
  intro inputs
  induction inputs with
  | nil => intro fs; rfl
  | cons head tail ih =>
    intro fs
    obtain ⟨r, e⟩ := head
    simp only [runPipelines]
    rw [upload_file_congr hurl hkey hpath hmax, ih]

/-- C1: the batch coordinator does gather exactly one outcome per
record in original order, but the report sink receives only the record
set: the gathered `results` value is discarded and `df.to_excel` writes
the records without their outcomes. Evaluated here at a one-record
batch whose pipeline succeeds. -/
theorem c1_sink_receives_records_without_outcomes :
    (run sampleUploader [(sampleRecord, envOk)] emptyFs).results =
      [("Success", "Uploaded successfully", "ok-42")] ∧
    (run sampleUploader [(sampleRecord, envOk)] emptyFs).sinkInput =
      [sampleRecord] :=
  ⟨rfl, rfl⟩

/-- C2 counterexample: with attempt 0 failing and attempt 1 succeeding,
two POSTs occur and both carry the identical `Date` value, so the retry
does not carry a strictly later timestamp than the first attempt. -/
theorem c2_counterexample :
    ((postsOf (upload_file sampleUploader sampleRecord envRetryThenOk emptyFs).2.2).map
        UploadPayload.date) =
      ["2025-05-05T10:00:00+00:00", "2025-05-05T10:00:00+00:00"] :=
  rfl

/-- C2 amended: `Date` is stamped exactly once per record, before the
first attempt; every POST of a record's retry loop carries the same
timestamp, the one `datetime.now` value read before the loop. -/
theorem c2_date_stamped_once_per_record (config : Config) (row : Record)
    (env : RecEnv) (fs : FS) (body : Bytes)
    (h : env.fetchResult = .resp 200 body) :
    ∀ q ∈ postsOf (upload_file (mkFileUploader config) row env fs).2.2,
    q.date = env.now := by
  intro q hq
  rw [upload_file_fetch200 (mkFileUploader config) row env fs body h] at hq
  simp only [postsOf, List.filterMap_cons] at hq
  have := mem_postsOf_uploadAttempts (mkFileUploader config)
    (buildForm row (deriveFilename row.url row.productId row.mediaId) body env.now)
    env (mkFileUploader config).maxRetries 0 q hq
  rw [this]
  rfl

/-- C2 witness. -/
theorem c2_witness :
    envRetryThenOk.fetchResult = FetchResult.resp 200 [137, 80, 78, 71] ∧
    (buildForm sampleRecord "1_9_a.png" [137, 80, 78, 71]
        "2025-05-05T10:00:00+00:00").date = envRetryThenOk.now :=
  ⟨rfl,
    c2_date_stamped_once_per_record sampleConfig sampleRecord envRetryThenOk
      emptyFs [137, 80, 78, 71] rfl _ (by decide)⟩

/-- C3 counterexample: with every attempt returning 500, three POSTs
occur with sleeps of 1, 2 and 4 units, and the final event of the
record's trace is the 4-unit sleep that follows the third (final)
attempt — the claimed absence of a delay after the final attempt is
false. -/
theorem c3_counterexample :
    (postsOf (upload_file sampleUploader sampleRecord envAllFail emptyFs).2.2).length = 3 ∧
    sleepsOf (upload_file sampleUploader sampleRecord envAllFail emptyFs).2.2 = [1, 2, 4] ∧
    (upload_file sampleUploader sampleRecord envAllFail emptyFs).2.2.getLast? =
      some (Event.sleep 4) :=
  ⟨rfl, rfl, rfl⟩

/-- C3 amended: with a successful fetch and every upload attempt
failing, exactly 3 POST attempts occur with delays of 2 ^ 0 = 1 and
2 ^ 1 = 2 time units after the first and second attempts, and
additionally a delay of 2 ^ 2 = 4 time units after the third (final)
attempt: the loop sleeps after every failed attempt, the last one
included. -/
theorem c3_backoff_includes_final_sleep (config : Config) (row : Record)
    (env : RecEnv) (fs : FS) (body : Bytes)
    (hfetch : env.fetchResult = .resp 200 body)
    (hfail : ∀ i, i < 3 → attemptFails (env.attemptResult i) = true) :
    (postsOf (upload_file (mkFileUploader config) row env fs).2.2).length = 3 ∧
    sleepsOf (upload_file (mkFileUploader config) row env fs).2.2 = [1, 2, 4] := by
  rw [upload_file_fetch200 (mkFileUploader config) row env fs body hfetch]
  rw [show (mkFileUploader config).maxRetries = 3 from rfl]
  rw [uploadAttempts_allFail (mkFileUploader config) _ env 3 0
    (fun i h1 h2 => hfail i (by omega))]
  constructor
  · simp only [postsOf_cons_getReq, postsOf_cons_fileWrite, postsOf_cons_fileRead,
      postsOf_failTrace, List.length_replicate]
  · simp only [sleepsOf_cons_getReq, sleepsOf_cons_fileWrite, sleepsOf_cons_fileRead,
      sleepsOf_failTrace_three]

/-- C3 witness. -/
theorem c3_witness :
    envAllFail.fetchResult = FetchResult.resp 200 [137, 80, 78, 71] ∧
    (∀ i, i < 3 → attemptFails (envAllFail.attemptResult i) = true) ∧
    ((postsOf (upload_file sampleUploader sampleRecord envAllFail emptyFs).2.2).length = 3 ∧
      sleepsOf (upload_file sampleUploader sampleRecord envAllFail emptyFs).2.2 = [1, 2, 4]) :=
  ⟨rfl, by decide,
    c3_backoff_includes_final_sleep sampleConfig sampleRecord envAllFail emptyFs
      [137, 80, 78, 71] rfl (by decide)⟩

/-- C4: a 200 response at attempt `k` returns the success triple with
that response body immediately, with exactly `k + 1` POSTs; all 3
attempts failing returns the max-retries triple; and the retry policy
is uniform across failure causes: any two all-failing environments
yield the same outcome and the same backoff delays regardless of
whether each attempt failed with a non-200 status, a timeout or an
exception. -/
theorem c4_retry_protocol :
    (∀ (config : Config) (row : Record) (env : RecEnv) (fs : FS) (bytes : Bytes)
      (k : Nat) (body : String),
      env.fetchResult = .resp 200 bytes →
      k < 3 →
      (∀ j, j < k → attemptFails (env.attemptResult j) = true) →
      env.attemptResult k = .resp 200 body →
      (upload_file (mkFileUploader config) row env fs).1 =
        ("Success", "Uploaded successfully", body) ∧
      (postsOf (upload_file (mkFileUploader config) row env fs).2.2).length = k + 1) ∧
    (∀ (config : Config) (row : Record) (env : RecEnv) (fs : FS) (bytes : Bytes),
      env.fetchResult = .resp 200 bytes →
      (∀ i, i < 3 → attemptFails (env.attemptResult i) = true) →
      (upload_file (mkFileUploader config) row env fs).1 =
        ("Error", "Max retries reached", "")) ∧
    (∀ (config : Config) (row : Record) (env1 env2 : RecEnv) (fs : FS) (bytes : Bytes),
      env1.fetchResult = .resp 200 bytes →
      env2.fetchResult = .resp 200 bytes →
      env1.now = env2.now →
      (∀ i, i < 3 → attemptFails (env1.attemptResult i) = true) →
      (∀ i, i < 3 → attemptFails (env2.attemptResult i) = true) →
      (upload_file (mkFileUploader config) row env1 fs).1 =
        (upload_file (mkFileUploader config) row env2 fs).1 ∧
      sleepsOf (upload_file (mkFileUploader config) row env1 fs).2.2 =
        sleepsOf (upload_file (mkFileUploader config) row env2 fs).2.2) := by
  refine ⟨?_, ?_, ?_⟩
  · intro config row env fs bytes k body hfetch hk hfail hsucc
    rw [upload_file_fetch200 (mkFileUploader config) row env fs bytes hfetch]
    rw [show (mkFileUploader config).maxRetries = 3 from rfl]
    rw [uploadAttempts_firstSuccess (mkFileUploader config) _ env 3 0 k body hk
      (fun j h1 h2 => hfail j (by omega)) (by simpa using hsucc)]
    refine ⟨rfl, ?_⟩
    simp only [postsOf_cons_getReq, postsOf_cons_fileWrite, postsOf_cons_fileRead,
      postsOf_append, postsOf_failTrace, postsOf_single_post, List.length_append,
      List.length_replicate, List.length_singleton]
  · intro config row env fs bytes hfetch hfail
    rw [upload_file_fetch200 (mkFileUploader config) row env fs bytes hfetch]
    rw [show (mkFileUploader config).maxRetries = 3 from rfl]
    rw [uploadAttempts_allFail (mkFileUploader config) _ env 3 0
      (fun i h1 h2 => hfail i (by omega))]
  · intro config row env1 env2 fs bytes hfetch1 hfetch2 hnow hfail1 hfail2
    rw [upload_file_fetch200 (mkFileUploader config) row env1 fs bytes hfetch1]
    rw [upload_file_fetch200 (mkFileUploader config) row env2 fs bytes hfetch2]
    rw [show (mkFileUploader config).maxRetries = 3 from rfl]
    rw [uploadAttempts_allFail (mkFileUploader config) _ env1 3 0
      (fun i h1 h2 => hfail1 i (by omega))]
    rw [uploadAttempts_allFail (mkFileUploader config) _ env2 3 0
      (fun i h1 h2 => hfail2 i (by omega))]
    rw [hnow]
    exact ⟨rfl, rfl⟩

/-- C4 witness. -/
theorem c4_witness :
    (envOk.fetchResult = FetchResult.resp 200 [137, 80, 78, 71] ∧
      envOk.attemptResult 0 = AttemptResult.resp 200 "ok-42" ∧
      (upload_file sampleUploader sampleRecord envOk emptyFs).1 =
        ("Success", "Uploaded successfully", "ok-42")) ∧
    (envAllFail.fetchResult = FetchResult.resp 200 [137, 80, 78, 71] ∧
      (upload_file sampleUploader sampleRecord envAllFail emptyFs).1 =
        ("Error", "Max retries reached", "")) :=
  ⟨⟨rfl, rfl,
      (c4_retry_protocol.1 sampleConfig sampleRecord envOk emptyFs
        [137, 80, 78, 71] 0 "ok-42" rfl (by decide) (fun j hj => absurd hj (by omega))
        rfl).1⟩,
    ⟨rfl,
      c4_retry_protocol.2.1 sampleConfig sampleRecord envAllFail emptyFs
        [137, 80, 78, 71] rfl (by decide)⟩⟩

/-- C5: a fetch that raises or returns a non-200 status yields the
fetch-stage failure triple, issues exactly one GET (never retried),
writes nothing to the filesystem, builds no payload and makes zero
upload attempts — the whole observable result is the error triple, the
unchanged filesystem, and a single GET event. -/
theorem c5_fetch_failure_is_terminal (config : Config) (row : Record)
    (env : RecEnv) (fs : FS) (h : fetchFails env.fetchResult = true) :
    upload_file (mkFileUploader config) row env fs =
      (("Error", "Failed to download image", ""), fs, [Event.getReq row.url]) ∧
    postsOf (upload_file (mkFileUploader config) row env fs).2.2 = [] := by
  have heq := upload_file_fetchFail (mkFileUploader config) row env fs h
  exact ⟨heq, by rw [heq]; rfl⟩

/-- C5 witness. -/
theorem c5_witness :
    fetchFails envFetch404.fetchResult = true ∧
    upload_file sampleUploader sampleRecord envFetch404 emptyFs =
      (("Error", "Failed to download image", ""), emptyFs,
        [Event.getReq "http://x/a.png"]) :=
  ⟨rfl,
    (c5_fetch_failure_is_terminal sampleConfig sampleRecord envFetch404 emptyFs
      rfl).1⟩

/-- C6: filename derivation is a pure function of `(url, productId,
mediaId)` — two calls on identical inputs agree — and it is injective
in the identifier pair: records differing in `productId` or `mediaId`
always derive different filenames, whatever their URLs. -/
theorem c6_filename_deterministic_and_collision_free :
    (∀ (url : String) (productId mediaId : Nat),
      deriveFilename url productId mediaId = deriveFilename url productId mediaId) ∧
    (∀ (u1 u2 : String) (p1 m1 p2 m2 : Nat),
      deriveFilename u1 p1 m1 = deriveFilename u2 p2 m2 →
      p1 = p2 ∧ m1 = m2) :=
  ⟨fun _ _ _ => rfl, fun _ _ _ _ _ _ h => deriveFilename_inj h⟩

/-- C6 witness. -/
theorem c6_witness : (1 : Nat) = 1 ∧ (9 : Nat) = 9 :=
  c6_filename_deterministic_and_collision_free.2
    "http://x/a.png" "http://x/a.png" 1 9 1 9 rfl

/-- C7: every per-record pipeline reaches a terminal outcome (fetch
exceptions and upload-attempt failures are converted to outcome
triples, never propagated), the batch produces exactly one outcome per
record, and each record's outcome is a function of that record and its
own environment alone — sibling records and shared filesystem state
cannot change it. -/
theorem c7_per_record_isolation (u : FileUploader)
    (inputs : List (Record × RecEnv)) (fs : FS) :
    (run u inputs fs).results.length = inputs.length ∧
    (run u inputs fs).results =
      inputs.map (fun re => (upload_file u re.1 re.2 emptyFs).1) := by
  have hmain : ∀ (fs0 : FS),
      (runPipelines u fs0 inputs).1 =
        inputs.map (fun re => (upload_file u re.1 re.2 emptyFs).1) := by
    induction inputs with
    | nil => intro fs0; rfl
    | cons head tail ih =>
      intro fs0
      obtain ⟨r, e⟩ := head
      simp only [runPipelines, List.map_cons]
      rw [upload_file_outcome_fs_irrel u r e fs0 emptyFs, ih]
  refine ⟨?_, hmain fs⟩
  show (runPipelines u fs inputs).1.length = inputs.length
  rw [hmain fs, List.length_map]

/-- C8 counterexample: with a successful fetch and three failing
attempts, three POSTs occur but the downloaded file is read exactly
once — not once per attempt as claimed. -/
theorem c8_counterexample :
    (postsOf (upload_file sampleUploader sampleRecord envAllFail emptyFs).2.2).length = 3 ∧
    fileReadsOf (upload_file sampleUploader sampleRecord envAllFail emptyFs).2.2 = 1 :=
  ⟨rfl, rfl⟩

/-- C8 amended: for a record with a successful fetch, the downloaded
file is opened and its bytes read exactly once, before the first
attempt; the one form built from that single read is reused by every
retry attempt. -/
theorem c8_payload_read_once_per_record (config : Config) (row : Record)
    (env : RecEnv) (fs : FS) (body : Bytes)
    (h : env.fetchResult = .resp 200 body) :
    fileReadsOf (upload_file (mkFileUploader config) row env fs).2.2 = 1 := by
  rw [upload_file_fetch200 (mkFileUploader config) row env fs body h]
  simp only [fileReadsOf, List.countP_cons]
  have := fileReadsOf_uploadAttempts (mkFileUploader config)
    (buildForm row (deriveFilename row.url row.productId row.mediaId) body env.now)
    env (mkFileUploader config).maxRetries 0
  simp only [fileReadsOf] at this
  rw [this]
  simp

/-- C8 witness. -/
theorem c8_witness :
    envAllFail.fetchResult = FetchResult.resp 200 [137, 80, 78, 71] ∧
    fileReadsOf (upload_file sampleUploader sampleRecord envAllFail emptyFs).2.2 = 1 :=
  ⟨rfl,
    c8_payload_read_once_per_record sampleConfig sampleRecord envAllFail emptyFs
      [137, 80, 78, 71] rfl⟩

/-- C9: the `request_delay` configuration value is stored but never
read by any control flow: two runs whose configurations differ only in
`REQUEST_DELAY` produce the same outcomes, the same report-sink input,
the same final filesystem and the same event trace (every GET, file
write, file read, POST and sleep identical). -/
theorem c9_request_delay_never_applied (config : Config) (d1 d2 : Nat)
    (inputs : List (Record × RecEnv)) (fs : FS) :
    run (mkFileUploader { config with requestDelay := d1 }) inputs fs =
      run (mkFileUploader { config with requestDelay := d2 }) inputs fs := by
  simp only [run]
  rw [runPipelines_congr (mkFileUploader { config with requestDelay := d1 })
    (mkFileUploader { config with requestDelay := d2 }) rfl rfl rfl rfl inputs fs]

/-- C10: after a pipeline invocation whose fetch succeeded, the
downloaded image is still present at its derived path in the final
filesystem state — whatever the upload outcome — and the pipeline never
deletes any existing file: every path occupied before is still occupied
after. -/
theorem c10_downloaded_file_persists (config : Config) (row : Record)
    (env : RecEnv) (fs : FS) (body : Bytes)
    (h : env.fetchResult = .resp 200 body) :
    (upload_file (mkFileUploader config) row env fs).2.1
        (joinPath (mkFileUploader config).imageDownloadPath
          (deriveFilename row.url row.productId row.mediaId)) = some body ∧
    (∀ p b, fs p = some b →
      ∃ b2, (upload_file (mkFileUploader config) row env fs).2.1 p = some b2) := by
  rw [upload_file_fetch200 (mkFileUploader config) row env fs body h]
  constructor
  · simp
  · intro p b hp
    by_cases hpp : p = joinPath (mkFileUploader config).imageDownloadPath
        (deriveFilename row.url row.productId row.mediaId)
    · exact ⟨body, by simp [hpp]⟩
    · exact ⟨b, by simp [if_neg hpp, hp]⟩

/-- C10 witness. -/
theorem c10_witness :
    envAllFail.fetchResult = FetchResult.resp 200 [137, 80, 78, 71] ∧
    (upload_file sampleUploader sampleRecord envAllFail emptyFs).2.1
        "images/1_9_a.png" = some [137, 80, 78, 71] :=
  ⟨rfl,
    (c10_downloaded_file_persists sampleConfig sampleRecord envAllFail emptyFs
      [137, 80, 78, 71] rfl).1⟩

end StorageImageUpdater
